import Mathlib

/-!
# Verification of the hexahedral FEM core (`src/fem/jax_fem.py`)

A shallow embedding of the element-level FEM machinery of the source file:
the hard-coded trilinear reference element, the per-cell geometric mapping
(Jacobian, its determinant and `JxW`), Dirichlet / Neumann boundary-condition
resolution, the weak-form residual assembly, and the von Mises plasticity
return mapping.

Floating-point arrays are modelled over `ℝ` (exact real arithmetic); the
purely combinatorial boundary-condition bookkeeping is modelled
polymorphically over the point/value types, so that concrete instances can
be evaluated by `decide`.  Array code that the claims exercise at mismatched
shapes is additionally modelled at the list level with `jax.numpy`'s runtime
semantics (index clamping on gather, dropped out-of-bounds scatter indices,
broadcasting on subtraction).
-/

namespace JaxFem

open Matrix

noncomputable section

/-- A point of the reference domain (dim = 3). -/
abbrev RefPoint := Fin 3 → ℝ

/-- `FEM.get_shape_val_functions`: the eight hard-coded first-order shape
functions `f1 .. f8` on the reference cube, translated literally from the
source lambdas (node `n` here is `f(n+1)` there). -/
def shape_val_fn : Fin 8 → RefPoint → ℝ
  | 0, x => -1/8 * (x 0 - 1) * (x 1 - 1) * (x 2 - 1)
  | 1, x => 1/8 * (x 0 + 1) * (x 1 - 1) * (x 2 - 1)
  | 2, x => -1/8 * (x 0 + 1) * (x 1 + 1) * (x 2 - 1)
  | 3, x => 1/8 * (x 0 - 1) * (x 1 + 1) * (x 2 - 1)
  | 4, x => 1/8 * (x 0 - 1) * (x 1 - 1) * (x 2 + 1)
  | 5, x => -1/8 * (x 0 + 1) * (x 1 - 1) * (x 2 + 1)
  | 6, x => 1/8 * (x 0 + 1) * (x 1 + 1) * (x 2 + 1)
  | 7, x => -1/8 * (x 0 - 1) * (x 1 + 1) * (x 2 + 1)

/-- `FEM.get_shape_grad_functions`: `jax.grad` of each shape function.  The
source obtains these by automatic differentiation, which is exact on
polynomials; here they are the hand-derived analytic gradients, justified
against `shape_val_fn` by `shape_grad_fn_is_deriv` below. -/
def shape_grad_fn : Fin 8 → RefPoint → Fin 3 → ℝ
  | 0, x => ![-1/8 * (x 1 - 1) * (x 2 - 1), -1/8 * (x 0 - 1) * (x 2 - 1),
              -1/8 * (x 0 - 1) * (x 1 - 1)]
  | 1, x => ![1/8 * (x 1 - 1) * (x 2 - 1), 1/8 * (x 0 + 1) * (x 2 - 1),
              1/8 * (x 0 + 1) * (x 1 - 1)]
  | 2, x => ![-1/8 * (x 1 + 1) * (x 2 - 1), -1/8 * (x 0 + 1) * (x 2 - 1),
              -1/8 * (x 0 + 1) * (x 1 + 1)]
  | 3, x => ![1/8 * (x 1 + 1) * (x 2 - 1), 1/8 * (x 0 - 1) * (x 2 - 1),
              1/8 * (x 0 - 1) * (x 1 + 1)]
  | 4, x => ![1/8 * (x 1 - 1) * (x 2 + 1), 1/8 * (x 0 - 1) * (x 2 + 1),
              1/8 * (x 0 - 1) * (x 1 - 1)]
  | 5, x => ![-1/8 * (x 1 - 1) * (x 2 + 1), -1/8 * (x 0 + 1) * (x 2 + 1),
              -1/8 * (x 0 + 1) * (x 1 - 1)]
  | 6, x => ![1/8 * (x 1 + 1) * (x 2 + 1), 1/8 * (x 0 + 1) * (x 2 + 1),
              1/8 * (x 0 + 1) * (x 1 + 1)]
  | 7, x => ![-1/8 * (x 1 + 1) * (x 2 + 1), -1/8 * (x 0 - 1) * (x 2 + 1),
              -1/8 * (x 0 - 1) * (x 1 + 1)]

/-- The 1D Gauss abscissa `np.sqrt(1./3.)` used by every quadrature rule. -/
def gauss : ℝ := Real.sqrt (1/3)

/-- `FEM.get_quad_points`: the 8 volumetric quadrature points.  The source
builds the list by the loops `for i: for j: for k:` appending
`[(2*(k%2)-1)*√(1/3), (2*(j%2)-1)*√(1/3), (2*(i%2)-1)*√(1/3)]`; row `q` of the
resulting `(8, 3)` array is tabulated here (`q = 4*i + 2*j + k`). -/
def quad_points : Fin 8 → RefPoint
  | 0 => ![-gauss, -gauss, -gauss]
  | 1 => ![gauss, -gauss, -gauss]
  | 2 => ![-gauss, gauss, -gauss]
  | 3 => ![gauss, gauss, -gauss]
  | 4 => ![-gauss, -gauss, gauss]
  | 5 => ![gauss, -gauss, gauss]
  | 6 => ![-gauss, gauss, gauss]
  | 7 => ![gauss, gauss, gauss]

/-- `FEM.get_face_quad_points` (points part): the `(6, 4, 3)` array of face
quadrature points.  The source loops `for d in range(3): for s in [-1, 1]:`
(face `f = 2*d + (s=1)`), builds `items = [s, (2*(j%2)-1)*√(1/3),
(2*(i%2)-1)*√(1/3)]` for the face-local quadrature index `fq = 2*i + j`, and
stores `np.roll(items, d)`.  Rows are tabulated here. -/
def face_quad_points : Fin 6 → Fin 4 → RefPoint
  | 0, 0 => ![-1, -gauss, -gauss]
  | 0, 1 => ![-1, gauss, -gauss]
  | 0, 2 => ![-1, -gauss, gauss]
  | 0, 3 => ![-1, gauss, gauss]
  | 1, 0 => ![1, -gauss, -gauss]
  | 1, 1 => ![1, gauss, -gauss]
  | 1, 2 => ![1, -gauss, gauss]
  | 1, 3 => ![1, gauss, gauss]
  | 2, 0 => ![-gauss, -1, -gauss]
  | 2, 1 => ![gauss, -1, -gauss]
  | 2, 2 => ![-gauss, -1, gauss]
  | 2, 3 => ![gauss, -1, gauss]
  | 3, 0 => ![-gauss, 1, -gauss]
  | 3, 1 => ![gauss, 1, -gauss]
  | 3, 2 => ![-gauss, 1, gauss]
  | 3, 3 => ![gauss, 1, gauss]
  | 4, 0 => ![-gauss, -gauss, -1]
  | 4, 1 => ![gauss, -gauss, -1]
  | 4, 2 => ![-gauss, gauss, -1]
  | 4, 3 => ![gauss, gauss, -1]
  | 5, 0 => ![-gauss, -gauss, 1]
  | 5, 1 => ![gauss, -gauss, 1]
  | 5, 2 => ![-gauss, gauss, 1]
  | 5, 3 => ![gauss, gauss, 1]

/-- `FEM.get_shape_vals`: `shape_vals[quad, node]`, the shape function values
at the 8 volumetric quadrature points. -/
def shape_vals (q : Fin 8) (n : Fin 8) : ℝ := shape_val_fn n (quad_points q)

/-- `FEM.get_face_shape_vals`: `face_shape_vals[face, face_quad, node]`. -/
def face_shape_vals (f : Fin 6) (fq : Fin 4) (n : Fin 8) : ℝ :=
  shape_val_fn n (face_quad_points f fq)

/-- The `(8 nodes × 3 dims)` block of physical node coordinates of one cell:
`physical_coos[cell] = np.take(points, cells, axis=0)[cell]`.  All per-cell
geometric quantities below are stated against an arbitrary such block, hence
hold for every cell of every mesh. -/
abbrev CellCoords := Fin 8 → Fin 3 → ℝ

/-- `FEM.get_shape_grads`: `jacobian_dx_deta[cell, quad] = np.sum(
physical_coos[:, None, :, :, None] * shape_grads_reference[None, :, :, None, :],
axis=2)` — the 3×3 Jacobian of the reference-to-physical map at a reference
point. -/
def jacobian_dx_deta (x : CellCoords) (ξ : RefPoint) : Matrix (Fin 3) (Fin 3) ℝ :=
  Matrix.of fun i j => ∑ n : Fin 8, x n i * shape_grad_fn n ξ j

/-- `jacobian_det = np.linalg.det(jacobian_dx_deta)` at quadrature point `q`. -/
def jacobian_det (x : CellCoords) (q : Fin 8) : ℝ :=
  (jacobian_dx_deta x (quad_points q)).det

/-- "For first order FEM with 8 quad points, those quad weights are all equal
to one" (source comment): `quad_weights = 1.`. -/
def quad_weights : ℝ := 1

/-- `JxW = jacobian_det * quad_weights`.  The source computes this directly
from the determinant, with no sign or degeneracy check of any kind. -/
def JxW (x : CellCoords) (q : Fin 8) : ℝ := jacobian_det x q * quad_weights

/-- `jacobian_deta_dx = np.linalg.inv(jacobian_dx_deta)`. -/
def jacobian_deta_dx (x : CellCoords) (q : Fin 8) : Matrix (Fin 3) (Fin 3) ℝ :=
  (jacobian_dx_deta x (quad_points q))⁻¹

/-- `shape_grads_physical = shape_grads_reference @ jacobian_deta_dx`
(row-vector times matrix, per cell/quad/node). -/
def shape_grads_physical (x : CellCoords) (q : Fin 8) (n : Fin 8) (d : Fin 3) : ℝ :=
  ∑ j : Fin 3, shape_grad_fn n (quad_points q) j * jacobian_deta_dx x q j d

/-- Modelled from the spec: "the cell's physical volume" (the measure of the
image of the reference cube under the trilinear map) is not computed anywhere
in the source; following the spec's change-of-variables reading it is the
integral of the Jacobian determinant over the reference cube `[-1,1]^3`,
which equals the geometric volume whenever the determinant is positive. -/
def cell_volume (x : CellCoords) : ℝ :=
  ∫ t1 in (-1:ℝ)..(1:ℝ), ∫ t2 in (-1:ℝ)..(1:ℝ), ∫ t3 in (-1:ℝ)..(1:ℝ),
    (jacobian_dx_deta x ![t1, t2, t3]).det

/-- Corner-sign table of the trilinear basis: node `n` sits at reference
corner `(ee n 0, ee n 1, ee n 2)` and `shape_val_fn n x = 1/8 * ∏ k (1 + ee n k * x k)`. -/
def ee : Fin 8 → Fin 3 → ℝ
  | 0 => ![-1, -1, -1]
  | 1 => ![1, -1, -1]
  | 2 => ![1, 1, -1]
  | 3 => ![-1, 1, -1]
  | 4 => ![-1, -1, 1]
  | 5 => ![1, -1, 1]
  | 6 => ![1, 1, 1]
  | 7 => ![-1, 1, 1]

/-- An affine factor `1 + a*t` of a shape-gradient component. -/
def aff (a t : ℝ) : ℝ := 1 + a * t

/-- A per-coordinate quadratic factor `(1 + a*t) * (1 + b*t)` of the
separable weight polynomials occurring in the Jacobian determinant. -/
def affp (a b t : ℝ) : ℝ := aff a t * aff b t

/-- Determinant of the 3×3 matrix whose row `j` is the coordinate vector of
node `r j`: the multilinear coefficient of the Jacobian-determinant
expansion. -/
def nodeDet (x : CellCoords) (r : Fin 3 → Fin 8) : ℝ :=
  (Matrix.of fun j i => x (r j) i).det

/-- The full scalar coefficient of the separable weight in the Jacobian
determinant expansion. -/
def eeK (x : CellCoords) (r : Fin 3 → Fin 8) : ℝ :=
  1/512 * (ee (r 0) 0 * ee (r 1) 1 * ee (r 2) 2) * nodeDet x r

/-- The single-hexahedron unit-cube mesh (`box_mesh`-style gmsh node order:
the reference corner `ee n` maps to `(ee n + 1)/2`). -/
def unit_cube_coords : CellCoords
  | 0 => ![0, 0, 0]
  | 1 => ![1, 0, 0]
  | 2 => ![1, 1, 0]
  | 3 => ![0, 1, 0]
  | 4 => ![0, 0, 1]
  | 5 => ![1, 0, 1]
  | 6 => ![1, 1, 1]
  | 7 => ![0, 1, 1]

/-- The unit cube mirrored through the plane `x = 0` (first coordinate
negated): an inverted cell, whose Jacobian determinant is `-1/8` everywhere. -/
def mirrored_cube_coords : CellCoords := fun n =>
  ![-(unit_cube_coords n 0), unit_cube_coords n 1, unit_cube_coords n 2]

/-- The gather `u_grads = np.sum(np.take(sol, cells, axis=0)[:, None, :, :, None]
* shape_grads[:, :, :, None, :], axis=2)` shared by `Laplace.compute_residual`
and `Plasticity.update_stress_strain` (both methods compute it by these same
lines). -/
def u_grads_of_sol {C N vec : ℕ} (cells : Fin C → Fin 8 → Fin N)
    (shape_grads : Fin C → Fin 8 → Fin 8 → Fin 3 → ℝ)
    (sol : Fin N → Fin vec → ℝ) : Fin C → Fin 8 → Fin vec → Fin 3 → ℝ :=
  fun c q v d => ∑ n : Fin 8, sol (cells c n) v * shape_grads c q n d

/-- The scatter-add `res.at[self.cells.reshape(-1)].add(vals)` into a
zero-initialised `(num_total_nodes, vec)` array: contributions of all
`(cell, node)` incidences of a global node accumulate additively. -/
def scatter_add {C N vec : ℕ} (cells : Fin C → Fin 8 → Fin N)
    (vals : Fin C → Fin 8 → Fin vec → ℝ) : Fin N → Fin vec → ℝ :=
  fun i v => ∑ c : Fin C, ∑ n : Fin 8, if cells c n = i then vals c n v else 0

/-- `FEM.get_physical_quad_points`: `np.sum(shape_vals[None, :, :, None] *
physical_coos[:, None, :, :], axis=2)`. -/
def get_physical_quad_points {C N : ℕ} (points : Fin N → Fin 3 → ℝ)
    (cells : Fin C → Fin 8 → Fin N) : Fin C → Fin 8 → Fin 3 → ℝ :=
  fun c q d => ∑ n : Fin 8, shape_vals q n * points (cells c n) d

namespace Laplace

/-- `Laplace.compute_physics`: the default physics hook is the identity
("Default to be identity function.  Child class should override this
function."). -/
def compute_physics {C N vec : ℕ} (sol : Fin N → Fin vec → ℝ)
    (u_grads : Fin C → Fin 8 → Fin vec → Fin 3 → ℝ) :
    Fin C → Fin 8 → Fin vec → Fin 3 → ℝ :=
  u_grads

/-- `Laplace.compute_body_force`: zero when `source_info` is `None`,
otherwise the scatter-added `(shape value × body force × JxW)` quadrature
sums. -/
def compute_body_force {C N vec : ℕ} (points : Fin N → Fin 3 → ℝ)
    (cells : Fin C → Fin 8 → Fin N) (jxw : Fin C → Fin 8 → ℝ) :
    Option ((Fin 3 → ℝ) → Fin vec → ℝ) → Fin N → Fin vec → ℝ
  | none => fun _ _ => 0
  | some f => scatter_add cells fun c n v =>
      ∑ q : Fin 8, shape_vals q n * f (get_physical_quad_points points cells c q) v * jxw c q

/-- `Laplace.compute_Neumann_integral` with `neumann_bc_info = None`: the
source skips the whole `if` body and returns `np.zeros((num_total_nodes,
vec))`.  (Only this branch is exercised by the claims.) -/
def compute_Neumann_integral_none (N vec : ℕ) : Fin N → Fin vec → ℝ := fun _ _ => 0

/-- `Laplace.compute_residual` over the precomputed attributes
(`self.cells`, `self.shape_grads`, `self.JxW`, `self.body_force`,
`self.neumann`); the `physics` argument models the dynamically dispatched
`self.compute_physics`.  The `reshape`/index bookkeeping of the source's
scatter is the `(cell, node)` double index of `scatter_add`. -/
def compute_residual {C N vec : ℕ} (cells : Fin C → Fin 8 → Fin N)
    (shape_grads : Fin C → Fin 8 → Fin 8 → Fin 3 → ℝ) (jxw : Fin C → Fin 8 → ℝ)
    (physics : (Fin N → Fin vec → ℝ) → (Fin C → Fin 8 → Fin vec → Fin 3 → ℝ)
      → (Fin C → Fin 8 → Fin vec → Fin 3 → ℝ))
    (body_force neumann : Fin N → Fin vec → ℝ)
    (sol : Fin N → Fin vec → ℝ) : Fin N → Fin vec → ℝ :=
  let u_grads := u_grads_of_sol cells shape_grads sol
  let u_physics := physics sol u_grads
  let weak_form : Fin C → Fin 8 → Fin vec → ℝ := fun c n v =>
    ∑ q : Fin 8, ∑ d : Fin 3, u_physics c q v d * (shape_grads c q n d * jxw c q)
  fun i v => scatter_add cells weak_form i v - body_force i v - neumann i v

end Laplace

/-- One `(vec, dim) = (3, 3)` block of a gradient / stress / strain field. -/
abbrev Mat3 := Matrix (Fin 3) (Fin 3) ℝ

namespace Plasticity

/-- `EPS = 1e-10`, the numerical safeguard of `Plasticity.stress_strain_fns`. -/
def EPS : ℝ := 1e-10

/-- `safe_sqrt(x) = np.sqrt(np.where(x > 0., x, EPS))`. -/
def safe_sqrt (x : ℝ) : ℝ := Real.sqrt (if x > 0 then x else EPS)

/-- `strain(u_grad) = 0.5*(u_grad + u_grad.T)`. -/
def strain (u_grad : Mat3) : Mat3 := (0.5 : ℝ) • (u_grad + u_gradᵀ)

/-- `stress(epsilon) = lmbda*np.trace(epsilon)*np.eye(3) + 2*mu*epsilon`, with
`E = 70e3`, `nu = 0.3`, `mu = E/(2*(1+nu))`, `lmbda = E*nu/((1+nu)*(1-2*nu))`. -/
def stress (ε : Mat3) : Mat3 :=
  let E : ℝ := 70e3
  let nu : ℝ := 0.3
  let mu : ℝ := E / (2 * (1 + nu))
  let lmbda : ℝ := E * nu / ((1 + nu) * (1 - 2 * nu))
  (lmbda * ε.trace) • (1 : Mat3) + (2 * mu) • ε

/-- `sig0 = 250.`, the yield stress of `stress_return_map`. -/
def sig0 : ℝ := 250

/-- Local binding `sigma_trial = stress(epsilon_crt - epsilon_old) + sigma_old`
of `stress_return_map` (with `epsilon_crt = strain(u_grad)` and
`epsilon_inc = epsilon_crt - epsilon_old`). -/
def sigma_trial (u_grad sigma_old epsilon_old : Mat3) : Mat3 :=
  stress (strain u_grad - epsilon_old) + sigma_old

/-- Local binding `s_dev = sigma_trial - 1/3*np.trace(sigma_trial)*np.eye(3)`. -/
def s_dev (u_grad sigma_old epsilon_old : Mat3) : Mat3 :=
  sigma_trial u_grad sigma_old epsilon_old
    - (1 / 3 * (sigma_trial u_grad sigma_old epsilon_old).trace) • (1 : Mat3)

/-- Local binding `s_norm = safe_sqrt(3/2 * np.sum(s_dev*s_dev))`. -/
def s_norm (u_grad sigma_old epsilon_old : Mat3) : ℝ :=
  safe_sqrt (3 / 2 * ∑ i : Fin 3, ∑ j : Fin 3,
    s_dev u_grad sigma_old epsilon_old i j * s_dev u_grad sigma_old epsilon_old i j)

/-- Local binding `f_yield = s_norm - sig0`. -/
def f_yield (u_grad sigma_old epsilon_old : Mat3) : ℝ :=
  s_norm u_grad sigma_old epsilon_old - sig0

/-- Local binding `f_yield_plus = np.where(f_yield > 0., f_yield, 0.)`. -/
def f_yield_plus (u_grad sigma_old epsilon_old : Mat3) : ℝ :=
  if f_yield u_grad sigma_old epsilon_old > 0 then f_yield u_grad sigma_old epsilon_old
  else 0

/-- `Plasticity.stress_strain_fns`' return mapping:
`sigma = sigma_trial - f_yield_plus*s_dev/(s_norm + EPS)`. -/
def stress_return_map (u_grad sigma_old epsilon_old : Mat3) : Mat3 :=
  sigma_trial u_grad sigma_old epsilon_old
    - (f_yield_plus u_grad sigma_old epsilon_old
        / (s_norm u_grad sigma_old epsilon_old + EPS))
      • s_dev u_grad sigma_old epsilon_old

/-- `Plasticity`'s internal state: `self.sigmas_old` and `self.epsilons_old`,
`(num_cells*num_quads, vec, dim)` arrays; the `(cell, quad)` pair stands for
the source's row-major flattened first index. -/
structure PlastState (C : ℕ) where
  sigmas_old : Fin C × Fin 8 → Mat3
  epsilons_old : Fin C × Fin 8 → Mat3

/-- `Plasticity.compute_physics`: maps the vmapped return mapping over the
trial gradients and the stored state.  The method body contains no assignment
to `self`, so as a state-passing function it returns the state unchanged
(second component). -/
def compute_physics {C N : ℕ} (st : PlastState C) (sol : Fin N → Fin 3 → ℝ)
    (u_grads : Fin C × Fin 8 → Mat3) : (Fin C × Fin 8 → Mat3) × PlastState C :=
  (fun k => stress_return_map (u_grads k) (st.sigmas_old k) (st.epsilons_old k), st)

/-- `Plasticity.update_stress_strain(sol)`: recomputes `u_grads` from `sol`
(same gather as `compute_residual`), then commits
`self.sigmas_old = stress_return_map(...)` and
`self.epsilons_old = strain(...)`. -/
def update_stress_strain {C N : ℕ} (cells : Fin C → Fin 8 → Fin N)
    (shape_grads : Fin C → Fin 8 → Fin 8 → Fin 3 → ℝ)
    (st : PlastState C) (sol : Fin N → Fin 3 → ℝ) : PlastState C :=
  let u_grads : Fin C × Fin 8 → Mat3 :=
    fun k => Matrix.of fun v d => u_grads_of_sol cells shape_grads sol k.1 k.2 v d
  { sigmas_old := fun k => stress_return_map (u_grads k) (st.sigmas_old k) (st.epsilons_old k)
    epsilons_old := fun k => strain (u_grads k) }

end Plasticity

end

section BoundaryResolver

variable {α : Type} {β : Type} [Inhabited α] [Inhabited β]

/-- `node_inds = np.argwhere(jax.vmap(location_fn)(points)).reshape(-1)`: the
ascending indices of the mesh points satisfying the location predicate.
Points and predicates are polymorphic in the point type — the resolver never
inspects coordinates itself. -/
def dirichlet_node_inds (points : List α) (loc : α → Bool) : List ℕ :=
  (List.range points.length).filter fun n => loc (points.getD n default)

/-- `FEM.Dirichlet_boundary_conditions`: asserts the three specification
lists have equal lengths (the source `assert`, modelled as `none`), then for
each entry `i` collects the matching node indices, the constant component
array `np.ones_like(node_inds)*vecs[i]`, and the value function evaluated at
the matching points (`jax.vmap(value_fns[i])(points[node_inds])`). -/
def Dirichlet_boundary_conditions (points : List α) (location_fns : List (α → Bool))
    (vecs : List ℤ) (value_fns : List (α → β)) :
    Option (List (List ℕ) × List (List ℤ) × List (List β)) :=
  if location_fns.length = value_fns.length ∧ value_fns.length = vecs.length then
    some
      ((List.range location_fns.length).map fun i =>
        dirichlet_node_inds points (location_fns.getD i fun _ => false),
       (List.range location_fns.length).map fun i =>
        List.replicate (dirichlet_node_inds points (location_fns.getD i fun _ => false)).length
          (vecs.getD i 0),
       (List.range location_fns.length).map fun i =>
        (dirichlet_node_inds points (location_fns.getD i fun _ => false)).map fun n =>
          (value_fns.getD i fun _ => default) (points.getD n default))
  else none

/-- `FEM.get_face_inds`' hard-coded reference node point table (`node_points`
in the source), over `ℚ` so that face resolution is decidable. -/
def node_points : Fin 8 → Fin 3 → ℚ
  | 0 => ![-1, -1, -1]
  | 1 => ![1, -1, -1]
  | 2 => ![1, 1, -1]
  | 3 => ![-1, 1, -1]
  | 4 => ![-1, -1, 1]
  | 5 => ![1, -1, 1]
  | 6 => ![1, 1, 1]
  | 7 => ![-1, 1, 1]

/-- The `(direction, extreme)` loop order `for d in range(3): for s in [-1, 1]`
shared by `get_face_inds` and `get_face_quad_points`. -/
def face_dirs : List (Fin 3 × ℚ) := [(0, -1), (0, 1), (1, -1), (1, 1), (2, -1), (2, 1)]

/-- `FEM.get_face_inds`: row `f` lists the 4 reference nodes `n` with
`np.isclose(node_points[n, d], s)` (exact comparison: the values are `±1`),
each row ascending (`np.argwhere`). -/
def get_face_inds : List (List ℕ) :=
  face_dirs.map fun ds =>
    ((List.finRange 8).filter fun n => decide (node_points n ds.1 = ds.2)).map Fin.val

/-- `cell_face_points[c, f] = np.take(np.take(points, cells, axis=0), face_inds,
axis=1)[c, f]`: the physical coordinates of the 4 nodes of local face `f` of
cell `c` (connectivity indices are in range for a mesh, so the `getD`
defaults are never read there). -/
def cell_face_points (points : List α) (cells : List (List ℕ)) (c f : ℕ) : List α :=
  (get_face_inds.getD f []).map fun ln =>
    points.getD ((cells.getD c []).getD ln 0) default

/-- The per-predicate body of `FEM.Neuman_boundary_conditions_inds`:
`np.argwhere(vvmap_on_boundary(cell_face_points))`, the row-major `(cell,
local_face)` pairs whose 4 face points all satisfy the predicate. -/
def boundary_inds (points : List α) (cells : List (List ℕ)) (loc : α → Bool) :
    List (ℕ × ℕ) :=
  ((List.range cells.length).flatMap fun c => (List.range 6).map fun f => (c, f)).filter
    fun cf => (cell_face_points points cells cf.1 cf.2).all loc

/-- `FEM.Neuman_boundary_conditions_inds`: one `boundary_inds` array per
location predicate. -/
def Neuman_boundary_conditions_inds (points : List α) (cells : List (List ℕ))
    (location_fns : List (α → Bool)) : List (List (ℕ × ℕ)) :=
  location_fns.map (boundary_inds points cells)

/-- A concrete Dirichlet specification over `ℚ`-valued points used to
evaluate the resolver: two predicates whose selections overlap at node 0 with
the same component, exercising the absence of deduplication. -/
def d_points : List ℚ := [0, 1]

def d_locs : List (ℚ → Bool) := [fun q => q == 0, fun q => decide (q ≤ 1)]

def d_vecs : List ℤ := [0, 0]

def d_vfns : List (ℚ → ℚ) := [fun q => q + 1, fun _ => 5]

end BoundaryResolver

noncomputable section

namespace Arr

/-- `jnp.take`-style row gather with JAX's out-of-bounds semantics: indices
are clamped into range (`np.take(sol, cells, axis=0)` raises nothing in
`jax.numpy`; out-of-range indices read the last row). -/
def takeRow (rows : List (List ℝ)) (i : ℕ) : List ℝ :=
  rows.getD (min i (rows.length - 1)) []

/-- Scalar read of a 2D array (indices are in range wherever it is used). -/
def at2 (l : List (List ℝ)) (i j : ℕ) : ℝ := (l.getD i []).getD j 0

/-- Scalar read of a 4D array. -/
def at4 (l : List (List (List (List ℝ)))) (c q n d : ℕ) : ℝ :=
  (((l.getD c []).getD q []).getD n []).getD d 0

/-- Row subtraction with numpy broadcasting in the trailing axis: equal
lengths subtract elementwise, a length-1 operand broadcasts, anything else
is a shape error. -/
def subRow (r1 r2 : List ℝ) : Except String (List ℝ) :=
  if r1.length = r2.length then Except.ok (List.zipWith (fun a b => a - b) r1 r2)
  else if r1.length = 1 then Except.ok (r2.map fun b => r1.headD 0 - b)
  else if r2.length = 1 then Except.ok (r1.map fun a => a - r2.headD 0)
  else Except.error "operands could not be broadcast together"

/-- 2D `a - b` with numpy broadcasting in the leading axis. -/
def broadcastSub (a b : List (List ℝ)) : Except String (List (List ℝ)) :=
  if a.length = b.length then (List.zipWith subRow a b).mapM id
  else if a.length = 1 then b.mapM fun rb => subRow (a.headD []) rb
  else if b.length = 1 then a.mapM fun ra => subRow ra (b.headD [])
  else Except.error "operands could not be broadcast together"

/-- One step of `res.at[idx].add(upd)`: an out-of-bounds index is dropped
(JAX's default scatter semantics); a trailing-shape mismatch is an error. -/
def scatterAdd1 (res : List (List ℝ)) (i : ℕ) (upd : List ℝ) :
    Except String (List (List ℝ)) :=
  if i < res.length then
    if (res.getD i []).length = upd.length then
      Except.ok (res.set i (List.zipWith (fun a b => a + b) (res.getD i []) upd))
    else Except.error "scatter update shape mismatch"
  else Except.ok res

/-- `res.at[idxs].add(updates)` over a list of (index, update-row) pairs;
repeated indices accumulate. -/
def scatterAddList (res : List (List ℝ)) :
    List (ℕ × List ℝ) → Except String (List (List ℝ))
  | [] => Except.ok res
  | iu :: rest => do
      let res2 ← scatterAdd1 res iu.1 iu.2
      scatterAddList res2 rest

/-- `Laplace.compute_residual` at the array level, with the base class's
identity `compute_physics`, under `jax.numpy`'s runtime semantics for each
array operation: clamped `take`, `reshape(-1, self.vec)` as
flatten-and-chunk (an error when `vec` does not divide the size), scatter-add
with dropped out-of-bounds indices, and broadcasting subtraction of
`self.body_force` and `self.neumann`.  `nn` (nodes per cell) and `vp` (the
solution's component count) are the corresponding array dimensions, as in
the source's broadcasting; `num_quads = 8` and `dim = 3` are the class
constants.  This definition settles how the method behaves when the solution
array's shape does not match the mesh: no validation happens at entry. -/
def compute_residual_shapes (cells : List (List ℕ))
    (shape_grads : List (List (List (List ℝ)))) (jxw : List (List ℝ)) (vec : ℕ)
    (body_force neumann : List (List ℝ)) (sol : List (List ℝ)) :
    Except String (List (List ℝ)) :=
  let C := cells.length
  let nn := (cells.headD []).length
  let vp := (sol.headD []).length
  let u_grads : ℕ → ℕ → ℕ → ℕ → ℝ := fun c q v d =>
    ∑ n ∈ Finset.range nn,
      (takeRow sol ((cells.getD c []).getD n 0)).getD v 0 * at4 shape_grads c q n d
  let weak_flat : List ℝ :=
    (List.range C).flatMap fun c => (List.range nn).flatMap fun n =>
      (List.range vp).map fun v =>
        ∑ q ∈ Finset.range 8, ∑ d ∈ Finset.range 3,
          u_grads c q v d * (at4 shape_grads c q n d * at2 jxw c q)
  if vec = 0 ∨ weak_flat.length % vec ≠ 0 then Except.error "cannot reshape"
  else
    let updates := weak_flat.toChunks vec
    let idxs := cells.flatten
    if idxs.length ≠ updates.length then Except.error "scatter shape mismatch"
    else do
      let res ← scatterAddList (sol.map fun row => row.map fun _ => 0) (idxs.zip updates)
      let res2 ← broadcastSub res body_force
      broadcastSub res2 neumann

end Arr

/-- The single-cell unit-cube mesh connectivity. -/
def unit_cube_cells_arr : List (List ℕ) := [[0, 1, 2, 3, 4, 5, 6, 7]]

/-- The precomputed `self.shape_grads` attribute for the unit-cube mesh, as
the `(1, 8, 8, 3)` array. -/
def unit_cube_shape_grads_arr : List (List (List (List ℝ))) :=
  [List.ofFn fun q : Fin 8 => List.ofFn fun n : Fin 8 => List.ofFn fun d : Fin 3 =>
    shape_grads_physical unit_cube_coords q n d]

/-- The precomputed `self.JxW` attribute for the unit-cube mesh. -/
def unit_cube_jxw_arr : List (List ℝ) :=
  [List.ofFn fun q : Fin 8 => JxW unit_cube_coords q]

/-- `np.zeros((n, m))`: the value of `self.body_force` and `self.neumann`
when no `source_info` / `neumann_bc_info` is given. -/
def zeros_arr (n m : ℕ) : List (List ℝ) := List.replicate n (List.replicate m 0)

/-- A solution array with the wrong node count: 1 node (instead of 8), 3
components. -/
def mismatched_sol : List (List ℝ) := [[0, 0, 0]]

end

/-- `shape_grad_fn` is the exact gradient of `shape_val_fn` (what `jax.grad`
computes): each component is the derivative in the corresponding coordinate. -/
theorem shape_grad_fn_is_deriv (n : Fin 8) (x : RefPoint) :
    HasDerivAt (fun t => shape_val_fn n ![t, x 1, x 2]) (shape_grad_fn n x 0) (x 0)
    ∧ HasDerivAt (fun t => shape_val_fn n ![x 0, t, x 2]) (shape_grad_fn n x 1) (x 1)
    ∧ HasDerivAt (fun t => shape_val_fn n ![x 0, x 1, t]) (shape_grad_fn n x 2) (x 2) := by
  have key : ∀ c a b d t : ℝ,
      HasDerivAt (fun s => c * (s + a) * b * d) (c * b * d) t := by
    intro c a b d t
    simpa using ((((hasDerivAt_id t).add_const a).const_mul c).mul_const b).mul_const d
  have key1 : ∀ k a d t : ℝ, HasDerivAt (fun s => k * (s + a) * d) (k * d) t := by
    intro k a d t
    simpa using (((hasDerivAt_id t).add_const a).const_mul k).mul_const d
  have key2 : ∀ k a t : ℝ, HasDerivAt (fun s => k * (s + a)) k t := by
    intro k a t
    simpa using ((hasDerivAt_id t).add_const a).const_mul k
  fin_cases n <;>
    refine ⟨?_, ?_, ?_⟩ <;>
    · simp only [shape_val_fn, shape_grad_fn, Matrix.cons_val_zero, Matrix.cons_val_one,
        Matrix.head_cons, Matrix.cons_val_two, Matrix.tail_cons, sub_eq_add_neg]
      first
        | exact key _ _ _ _ _
        | exact key1 _ _ _ _
        | exact key2 _ _ _

/-- Partition of unity of the trilinear basis: at every reference point the
eight shape values sum to `1` and the eight reference gradients sum to `0`. -/
theorem sum_shape_val_eq_one (ξ : RefPoint) : ∑ n : Fin 8, shape_val_fn n ξ = 1 := by
  simp [Fin.sum_univ_eight, shape_val_fn]; ring

theorem sum_shape_grad_eq_zero (ξ : RefPoint) (j : Fin 3) :
    ∑ n : Fin 8, shape_grad_fn n ξ j = 0 := by
  fin_cases j <;> · simp [Fin.sum_univ_eight, shape_grad_fn]; ring

/-- C10: at every one of the 8 volumetric quadrature points and every one of
the 24 face quadrature points, the 8 trilinear shape function values sum to
exactly 1, and the 8 reference shape gradients sum to the zero vector
(partition of unity). -/
theorem C10_partition_of_unity :
    (∀ q : Fin 8, ∑ n : Fin 8, shape_vals q n = 1)
    ∧ (∀ (q : Fin 8) (j : Fin 3), ∑ n : Fin 8, shape_grad_fn n (quad_points q) j = 0)
    ∧ (∀ (f : Fin 6) (fq : Fin 4), ∑ n : Fin 8, face_shape_vals f fq n = 1)
    ∧ (∀ (f : Fin 6) (fq : Fin 4) (j : Fin 3),
        ∑ n : Fin 8, shape_grad_fn n (face_quad_points f fq) j = 0) :=
  ⟨fun q => sum_shape_val_eq_one (quad_points q),
   fun q j => sum_shape_grad_eq_zero (quad_points q) j,
   fun f fq => sum_shape_val_eq_one (face_quad_points f fq),
   fun f fq j => sum_shape_grad_eq_zero (face_quad_points f fq) j⟩

/-- Shape-gradient components in corner-sign form: component `j` of the
gradient of `shape_val_fn n` is `1/8 * ee n j` times the product of the
affine factors in the two other coordinates. -/
theorem shape_grad_fn_eq_aff (n : Fin 8) (ξ : RefPoint) :
    shape_grad_fn n ξ 0 = 1/8 * ee n 0 * (aff (ee n 1) (ξ 1) * aff (ee n 2) (ξ 2))
    ∧ shape_grad_fn n ξ 1 = 1/8 * ee n 1 * (aff (ee n 0) (ξ 0) * aff (ee n 2) (ξ 2))
    ∧ shape_grad_fn n ξ 2 = 1/8 * ee n 2 * (aff (ee n 0) (ξ 0) * aff (ee n 1) (ξ 1)) := by
  fin_cases n <;> refine ⟨?_, ?_, ?_⟩ <;> · simp [shape_grad_fn, ee, aff]; ring

/-- Multilinear expansion of the Jacobian determinant over the three columns:
a sum over node triples of a reference weight polynomial times the node
determinant. -/
theorem det_jacobian_expand (x : CellCoords) (ξ : RefPoint) :
    (jacobian_dx_deta x ξ).det
      = ∑ r : Fin 3 → Fin 8, (∏ j : Fin 3, shape_grad_fn (r j) ξ j) * nodeDet x r := by
  rw [← Matrix.det_transpose]
  have hrows : ((jacobian_dx_deta x ξ)ᵀ)
      = Matrix.of fun j => ∑ n : Fin 8, shape_grad_fn n ξ j • fun i => x n i := by
    ext j i
    simp [jacobian_dx_deta, Finset.sum_apply, mul_comm]
  rw [hrows]
  have hdet : (Matrix.of fun j => ∑ n : Fin 8, shape_grad_fn n ξ j • fun i => x n i).det
      = (Matrix.detRowAlternating : AlternatingMap ℝ (Fin 3 → ℝ) ℝ (Fin 3))
          fun j => ∑ n : Fin 8, (fun j n => shape_grad_fn n ξ j • fun i => x n i) j n := rfl
  rw [hdet, ← AlternatingMap.coe_multilinearMap, MultilinearMap.map_sum]
  refine Finset.sum_congr rfl fun r _ => ?_
  rw [MultilinearMap.map_smul_univ]
  simp only [smul_eq_mul, AlternatingMap.coe_multilinearMap]
  rfl

/-- The canonical separable form of the Jacobian determinant: for each node
triple the weight factorizes per reference coordinate into quadratics. -/
theorem det_expand_sep (x : CellCoords) (ξ : RefPoint) :
    (jacobian_dx_deta x ξ).det
      = ∑ r : Fin 3 → Fin 8,
          eeK x r * affp (ee (r 1) 0) (ee (r 2) 0) (ξ 0)
            * affp (ee (r 0) 1) (ee (r 2) 1) (ξ 1)
            * affp (ee (r 0) 2) (ee (r 1) 2) (ξ 2) := by
  rw [det_jacobian_expand]
  refine Finset.sum_congr rfl fun r _ => ?_
  rw [Fin.prod_univ_three, (shape_grad_fn_eq_aff (r 0) ξ).1,
    (shape_grad_fn_eq_aff (r 1) ξ).2.1, (shape_grad_fn_eq_aff (r 2) ξ).2.2]
  unfold eeK affp
  ring

theorem gauss_mul_self : gauss * gauss = 1/3 := by
  simpa [gauss] using Real.mul_self_sqrt (by norm_num : (0:ℝ) ≤ 1/3)

/-- The two-point Gauss sum of one quadratic factor. -/
theorem affp_gauss_sum (a b : ℝ) :
    affp a b gauss + affp a b (-gauss) = 2 + 2 * (a * b) / 3 := by
  have h := gauss_mul_self
  unfold affp aff
  linear_combination 2 * a * b * h

/-- The exact integral of the same quadratic factor over `[-1, 1]`. -/
theorem affp_integral (a b : ℝ) :
    (∫ t in (-1:ℝ)..(1:ℝ), affp a b t) = 2 + 2 * (a * b) / 3 := by
  have h1 : ∀ t : ℝ, affp a b t = 1 + (a + b) * t + (a * b) * t ^ 2 := by
    intro t; unfold affp aff; ring
  simp only [h1]
  have i2 : IntervalIntegrable (fun t : ℝ => (a + b) * t) MeasureTheory.volume (-1) 1 :=
    (by fun_prop : Continuous fun t : ℝ => (a + b) * t).intervalIntegrable _ _
  have i1 : IntervalIntegrable (fun _ : ℝ => (1:ℝ)) MeasureTheory.volume (-1) 1 :=
    intervalIntegrable_const
  have i3 : IntervalIntegrable (fun t : ℝ => (a * b) * t ^ 2) MeasureTheory.volume (-1) 1 :=
    (by fun_prop : Continuous fun t : ℝ => (a * b) * t ^ 2).intervalIntegrable _ _
  rw [intervalIntegral.integral_add (i1.add i2) i3, intervalIntegral.integral_add i1 i2,
    intervalIntegral.integral_const_mul, intervalIntegral.integral_const_mul,
    integral_id, integral_pow, integral_one]
  norm_num
  ring

/-- The 8-point volumetric quadrature sum of a separable product factorizes
into the three two-point Gauss sums. -/
theorem quad_sum_separable (u v w : ℝ → ℝ) :
    ∑ q : Fin 8, u (quad_points q 0) * (v (quad_points q 1) * w (quad_points q 2))
      = (u gauss + u (-gauss)) * ((v gauss + v (-gauss)) * (w gauss + w (-gauss))) := by
  rw [Fin.sum_univ_eight]
  simp only [quad_points, Matrix.cons_val_zero, Matrix.cons_val_one, Matrix.head_cons,
    Matrix.cons_val_two, Matrix.tail_cons]
  ring

theorem continuous_affp (a b : ℝ) : Continuous (affp a b) := by
  unfold affp aff; fun_prop

/-- The quadrature sum of `JxW` over one cell, in closed multilinear form. -/
theorem sum_JxW_closed (x : CellCoords) :
    ∑ q : Fin 8, JxW x q
      = ∑ r : Fin 3 → Fin 8,
          eeK x r * (2 + 2 * (ee (r 1) 0 * ee (r 2) 0) / 3)
            * (2 + 2 * (ee (r 0) 1 * ee (r 2) 1) / 3)
            * (2 + 2 * (ee (r 0) 2 * ee (r 1) 2) / 3) := by
  unfold JxW jacobian_det quad_weights
  simp only [mul_one, det_expand_sep]
  rw [Finset.sum_comm]
  refine Finset.sum_congr rfl fun r _ => ?_
  calc ∑ q : Fin 8, eeK x r * affp (ee (r 1) 0) (ee (r 2) 0) (quad_points q 0)
        * affp (ee (r 0) 1) (ee (r 2) 1) (quad_points q 1)
        * affp (ee (r 0) 2) (ee (r 1) 2) (quad_points q 2)
      = ∑ q : Fin 8, eeK x r * (affp (ee (r 1) 0) (ee (r 2) 0) (quad_points q 0)
          * (affp (ee (r 0) 1) (ee (r 2) 1) (quad_points q 1)
            * affp (ee (r 0) 2) (ee (r 1) 2) (quad_points q 2))) :=
        Finset.sum_congr rfl fun q _ => by ring
    _ = eeK x r * ∑ q : Fin 8, affp (ee (r 1) 0) (ee (r 2) 0) (quad_points q 0)
          * (affp (ee (r 0) 1) (ee (r 2) 1) (quad_points q 1)
            * affp (ee (r 0) 2) (ee (r 1) 2) (quad_points q 2)) :=
        (Finset.mul_sum _ _ _).symm
    _ = eeK x r * ((affp (ee (r 1) 0) (ee (r 2) 0) gauss + affp (ee (r 1) 0) (ee (r 2) 0) (-gauss))
          * ((affp (ee (r 0) 1) (ee (r 2) 1) gauss + affp (ee (r 0) 1) (ee (r 2) 1) (-gauss))
            * (affp (ee (r 0) 2) (ee (r 1) 2) gauss + affp (ee (r 0) 2) (ee (r 1) 2) (-gauss)))) := by
        rw [quad_sum_separable]
    _ = eeK x r * (2 + 2 * (ee (r 1) 0 * ee (r 2) 0) / 3)
          * (2 + 2 * (ee (r 0) 1 * ee (r 2) 1) / 3)
          * (2 + 2 * (ee (r 0) 2 * ee (r 1) 2) / 3) := by
        rw [affp_gauss_sum, affp_gauss_sum, affp_gauss_sum]; ring

/-- Exchange of a finite sum with the interval integral, one quadratic factor
in the integration variable (innermost-level shape). -/
theorem integral_sum_affp3 {ι : Type} [Fintype ι] (K e f : ι → ℝ) :
    (∫ t in (-1:ℝ)..(1:ℝ), ∑ r : ι, K r * affp (e r) (f r) t)
      = ∑ r : ι, K r * (2 + 2 * (e r * f r) / 3) := by
  rw [intervalIntegral.integral_finset_sum
    (fun r _ => ((continuous_const.mul (continuous_affp (e r) (f r))).intervalIntegrable _ _))]
  exact Finset.sum_congr rfl fun r _ => by
    rw [intervalIntegral.integral_const_mul, affp_integral]

/-- The same exchange with one trailing constant factor (middle level). -/
theorem integral_sum_affp2 {ι : Type} [Fintype ι] (K e f M : ι → ℝ) :
    (∫ t in (-1:ℝ)..(1:ℝ), ∑ r : ι, K r * affp (e r) (f r) t * M r)
      = ∑ r : ι, K r * (2 + 2 * (e r * f r) / 3) * M r := by
  rw [intervalIntegral.integral_finset_sum
    (fun r _ => (((continuous_const.mul (continuous_affp (e r) (f r))).mul
      continuous_const).intervalIntegrable _ _))]
  exact Finset.sum_congr rfl fun r _ => by
    rw [intervalIntegral.integral_mul_const, intervalIntegral.integral_const_mul, affp_integral]

/-- The same exchange with two trailing constant factors (outer level). -/
theorem integral_sum_affp1 {ι : Type} [Fintype ι] (K e f M M2 : ι → ℝ) :
    (∫ t in (-1:ℝ)..(1:ℝ), ∑ r : ι, K r * affp (e r) (f r) t * M r * M2 r)
      = ∑ r : ι, K r * (2 + 2 * (e r * f r) / 3) * M r * M2 r := by
  rw [intervalIntegral.integral_finset_sum
    (fun r _ => ((((continuous_const.mul (continuous_affp (e r) (f r))).mul
      continuous_const).mul continuous_const).intervalIntegrable _ _))]
  exact Finset.sum_congr rfl fun r _ => by
    rw [intervalIntegral.integral_mul_const, intervalIntegral.integral_mul_const,
      intervalIntegral.integral_const_mul, affp_integral]

/-- The reference-cube integral of the Jacobian determinant, in the same
closed multilinear form as the quadrature sum. -/
theorem cell_volume_closed (x : CellCoords) :
    cell_volume x
      = ∑ r : Fin 3 → Fin 8,
          eeK x r * (2 + 2 * (ee (r 1) 0 * ee (r 2) 0) / 3)
            * (2 + 2 * (ee (r 0) 1 * ee (r 2) 1) / 3)
            * (2 + 2 * (ee (r 0) 2 * ee (r 1) 2) / 3) := by
  unfold cell_volume
  simp only [det_expand_sep, Matrix.cons_val_zero, Matrix.cons_val_one, Matrix.head_cons,
    Matrix.cons_val_two, Matrix.tail_cons]
  simp only [integral_sum_affp3]
  simp only [integral_sum_affp2]
  simp only [integral_sum_affp1]

/-- 2×2×2 Gauss quadrature is exact for the Jacobian determinant of a
trilinear hexahedron: the quadrature sum of `JxW` equals the reference-cube
integral of the determinant, for every cell. -/
theorem sum_JxW_eq_cell_volume (x : CellCoords) :
    ∑ q : Fin 8, JxW x q = cell_volume x := by
  rw [sum_JxW_closed, cell_volume_closed]

theorem jacobian_unit_cube (ξ : RefPoint) :
    jacobian_dx_deta unit_cube_coords ξ
      = Matrix.of fun i j => if i = j then (1/2 : ℝ) else 0 := by
  ext i j
  fin_cases i <;> fin_cases j <;>
    · simp [jacobian_dx_deta, Fin.sum_univ_eight, unit_cube_coords, shape_grad_fn,
        Matrix.cons_val_zero, Matrix.cons_val_one, Matrix.head_cons, Matrix.cons_val_two,
        Matrix.tail_cons]
      ring

theorem jacobian_det_unit_cube (q : Fin 8) : jacobian_det unit_cube_coords q = 1/8 := by
  unfold jacobian_det
  rw [jacobian_unit_cube, Matrix.det_fin_three]
  norm_num [Fin.ext_iff]

theorem sum_JxW_unit_cube : ∑ q : Fin 8, JxW unit_cube_coords q = 1 := by
  simp [JxW, quad_weights, jacobian_det_unit_cube, Fin.sum_univ_eight]

/-- C7: for every trilinear hexahedral cell with positive Jacobian
determinants at the quadrature points, the sum of `JxW` over the cell's 8
quadrature points equals the cell's physical volume (the change-of-variables
integral `cell_volume`); in particular, for the single unit-cube hexahedron
the sum equals 1. -/
theorem C7_JxW_sums_to_volume :
    (∀ x : CellCoords, (∀ q : Fin 8, 0 < jacobian_det x q) →
        ∑ q : Fin 8, JxW x q = cell_volume x)
    ∧ ∑ q : Fin 8, JxW unit_cube_coords q = 1 :=
  ⟨fun x _ => sum_JxW_eq_cell_volume x, sum_JxW_unit_cube⟩

theorem jacobian_mirrored_cube (ξ : RefPoint) :
    jacobian_dx_deta mirrored_cube_coords ξ
      = Matrix.of fun i j =>
          if i = j then (if i = 0 then -(1/2 : ℝ) else 1/2) else 0 := by
  ext i j
  fin_cases i <;> fin_cases j <;>
    · simp [jacobian_dx_deta, Fin.sum_univ_eight, mirrored_cube_coords, unit_cube_coords,
        shape_grad_fn, Matrix.cons_val_zero, Matrix.cons_val_one, Matrix.head_cons,
        Matrix.cons_val_two, Matrix.tail_cons]
      ring

theorem jacobian_det_mirrored_cube (q : Fin 8) :
    jacobian_det mirrored_cube_coords q = -(1/8) := by
  unfold jacobian_det
  rw [jacobian_mirrored_cube, Matrix.det_fin_three]
  norm_num [Fin.ext_iff]

/-- C4 counterexample: for the inverted (mirrored) unit cube the Jacobian
determinant is non-positive at a quadrature point, and the `JxW`
precomputation nevertheless returns a value, `-1/8`, with no error of any
kind — the source has no determinant check and `np.linalg` raises nothing
for a negative determinant. -/
theorem C4_counterexample :
    jacobian_det mirrored_cube_coords 0 ≤ 0
    ∧ JxW mirrored_cube_coords 0 = -(1/8) := by
  constructor
  · rw [jacobian_det_mirrored_cube]; norm_num
  · rw [JxW, jacobian_det_mirrored_cube, quad_weights]; ring

/-- C4 amended: the shape-gradient/`JxW` precomputation performs no
degeneracy check whatsoever: `JxW` is always `jacobian_det * quad_weights`,
so a cell with non-positive Jacobian determinant at a quadrature point
silently yields a non-positive `JxW` there instead of an explicit error. -/
theorem C4_no_determinant_check (x : CellCoords) (q : Fin 8)
    (h : jacobian_det x q ≤ 0) :
    JxW x q = jacobian_det x q * quad_weights ∧ JxW x q ≤ 0 :=
  ⟨rfl, by simpa [JxW, quad_weights] using h⟩

theorem C4_witness :
    jacobian_det mirrored_cube_coords 0 ≤ 0
    ∧ (JxW mirrored_cube_coords 0
          = jacobian_det mirrored_cube_coords 0 * quad_weights
        ∧ JxW mirrored_cube_coords 0 ≤ 0) := by
  have h : jacobian_det mirrored_cube_coords 0 ≤ 0 := by
    rw [jacobian_det_mirrored_cube]; norm_num
  exact ⟨h, C4_no_determinant_check mirrored_cube_coords 0 h⟩

/-- C1: the plasticity return mapping computes the trial stress as the
linear-elastic stress of the strain increment plus the stored stress; the
yield excess `f` is the epsilon-regularized norm `sqrt(3/2*sum(s_dev*s_dev))`
of the deviatoric trial stress minus the yield stress 250; at `f ≤ 0` the
returned stress is the trial stress, and at `f > 0` it is the trial stress
minus `f * s_dev / (s_norm + EPS)`. -/
theorem C1_return_mapping (u_grad sigma_old epsilon_old : Mat3) :
    Plasticity.sigma_trial u_grad sigma_old epsilon_old
        = Plasticity.stress (Plasticity.strain u_grad - epsilon_old) + sigma_old
    ∧ Plasticity.f_yield u_grad sigma_old epsilon_old
        = Plasticity.safe_sqrt (3 / 2 * ∑ i : Fin 3, ∑ j : Fin 3,
            Plasticity.s_dev u_grad sigma_old epsilon_old i j
              * Plasticity.s_dev u_grad sigma_old epsilon_old i j) - 250
    ∧ (Plasticity.f_yield u_grad sigma_old epsilon_old ≤ 0 →
        Plasticity.stress_return_map u_grad sigma_old epsilon_old
          = Plasticity.sigma_trial u_grad sigma_old epsilon_old)
    ∧ (0 < Plasticity.f_yield u_grad sigma_old epsilon_old →
        Plasticity.stress_return_map u_grad sigma_old epsilon_old
          = Plasticity.sigma_trial u_grad sigma_old epsilon_old
            - (Plasticity.f_yield u_grad sigma_old epsilon_old
                / (Plasticity.s_norm u_grad sigma_old epsilon_old + Plasticity.EPS))
              • Plasticity.s_dev u_grad sigma_old epsilon_old) := by
  refine ⟨rfl, rfl, fun h => ?_, fun h => ?_⟩
  · unfold Plasticity.stress_return_map Plasticity.f_yield_plus
    rw [if_neg (not_lt.mpr h)]
    simp
  · unfold Plasticity.stress_return_map Plasticity.f_yield_plus
    rw [if_pos h]

/-- C5: `Plasticity.compute_physics` leaves the stored state untouched and
its stress output is a function of the trial gradients and the stored state
only (hence two calls with identical inputs return identical stress fields);
`update_stress_strain` is the only operation that writes `sigmas_old` and
`epsilons_old`, committing the recomputed stress and strain. -/
theorem C5_physics_pure {C N : ℕ} (st : Plasticity.PlastState C)
    (sol sol2 : Fin N → Fin 3 → ℝ) (u_grads : Fin C × Fin 8 → Mat3)
    (cells : Fin C → Fin 8 → Fin N)
    (shape_grads : Fin C → Fin 8 → Fin 8 → Fin 3 → ℝ) :
    ((Plasticity.compute_physics st sol u_grads).2 = st)
    ∧ ((Plasticity.compute_physics st sol u_grads).1
        = fun k => Plasticity.stress_return_map (u_grads k)
            (st.sigmas_old k) (st.epsilons_old k))
    ∧ ((Plasticity.compute_physics st sol u_grads).1
        = (Plasticity.compute_physics st sol2 u_grads).1)
    ∧ ((Plasticity.update_stress_strain cells shape_grads st sol).sigmas_old
        = fun k => Plasticity.stress_return_map
            (Matrix.of fun v d => u_grads_of_sol cells shape_grads sol k.1 k.2 v d)
            (st.sigmas_old k) (st.epsilons_old k))
    ∧ ((Plasticity.update_stress_strain cells shape_grads st sol).epsilons_old
        = fun k => Plasticity.strain
            (Matrix.of fun v d => u_grads_of_sol cells shape_grads sol k.1 k.2 v d)) :=
  ⟨rfl, rfl, rfl, rfl, rfl⟩

/-- C2: for every mesh (arbitrary connectivity and precomputed geometry
arrays), with the identity material model, no `source_info` and no
`neumann_bc_info`, `compute_residual` of the all-zero solution field is the
all-zero residual vector. -/
theorem C2_zero_residual {C N vec : ℕ} (points : Fin N → Fin 3 → ℝ)
    (cells : Fin C → Fin 8 → Fin N)
    (shape_grads : Fin C → Fin 8 → Fin 8 → Fin 3 → ℝ) (jxw : Fin C → Fin 8 → ℝ) :
    Laplace.compute_residual cells shape_grads jxw Laplace.compute_physics
      (Laplace.compute_body_force points cells jxw none)
      (Laplace.compute_Neumann_integral_none N vec)
      (fun _ _ => 0)
      = fun _ _ => 0 := by
  funext i v
  simp [Laplace.compute_residual, Laplace.compute_physics, Laplace.compute_body_force,
    Laplace.compute_Neumann_integral_none, u_grads_of_sol, scatter_add]

theorem getD_map_range {γ : Type} (L i : ℕ) (f : ℕ → γ) (d : γ) (hi : i < L) :
    ((List.range L).map f).getD i d = f i := by
  rw [List.getD_eq_getElem?_getD]
  simp [List.getElem?_map, List.getElem?_range, hi]

/-- C6: under equal specification-list lengths, entry `i` of the Dirichlet
resolution consists of exactly the indices of the points satisfying predicate
`i` (ascending), the constant component list `vecs[i]` of the same length,
and the value function evaluated at the selected points' coordinates; each
entry depends on its own specification only, with no deduplication across
entries. -/
theorem C6_dirichlet_resolution {α β : Type} [Inhabited α] [Inhabited β]
    (points : List α) (locs : List (α → Bool)) (vecs : List ℤ) (vfns : List (α → β))
    (h : locs.length = vfns.length ∧ vfns.length = vecs.length)
    (i : ℕ) (hi : i < locs.length) :
    ∃ (nds : List (List ℕ)) (vis : List (List ℤ)) (vls : List (List β)),
      Dirichlet_boundary_conditions points locs vecs vfns = some (nds, vis, vls)
      ∧ nds.getD i [] = dirichlet_node_inds points (locs.getD i fun _ => false)
      ∧ (∀ n : ℕ, n ∈ nds.getD i []
          ↔ n < points.length ∧ (locs.getD i fun _ => false) (points.getD n default) = true)
      ∧ vis.getD i [] = List.replicate (nds.getD i []).length (vecs.getD i 0)
      ∧ vls.getD i [] = ((nds.getD i []).map fun n =>
          (vfns.getD i fun _ => default) (points.getD n default)) := by
  unfold Dirichlet_boundary_conditions
  rw [if_pos h]
  refine ⟨_, _, _, rfl, getD_map_range _ _ _ _ hi, fun n => ?_, ?_, ?_⟩
  · rw [getD_map_range _ _ _ _ hi]
    unfold dirichlet_node_inds
    simp [List.mem_filter, List.mem_range]
  · rw [getD_map_range _ _ _ _ hi, getD_map_range _ _ _ _ hi]
  · rw [getD_map_range _ _ _ _ hi, getD_map_range _ _ _ _ hi]

theorem C6_witness :
    (d_locs.length = d_vfns.length ∧ d_vfns.length = d_vecs.length)
    ∧ 0 < d_locs.length
    ∧ ∃ (nds : List (List ℕ)) (vis : List (List ℤ)) (vls : List (List ℚ)),
        Dirichlet_boundary_conditions d_points d_locs d_vecs d_vfns = some (nds, vis, vls)
        ∧ nds.getD 0 [] = dirichlet_node_inds d_points (d_locs.getD 0 fun _ => false)
        ∧ (∀ n : ℕ, n ∈ nds.getD 0 []
            ↔ n < d_points.length
              ∧ (d_locs.getD 0 fun _ => false) (d_points.getD n default) = true)
        ∧ vis.getD 0 [] = List.replicate (nds.getD 0 []).length (d_vecs.getD 0 0)
        ∧ vls.getD 0 [] = ((nds.getD 0 []).map fun n =>
            (d_vfns.getD 0 fun _ => default) (d_points.getD n default)) :=
  ⟨by decide, by decide,
   C6_dirichlet_resolution d_points d_locs d_vecs d_vfns (by decide) 0 (by decide)⟩

/-- C8: if the three Dirichlet specification lists do not all have the same
length, resolution fails at once (the source `assert`, before any node index
or value is computed), modelled as the `none` result. -/
theorem C8_dirichlet_length_mismatch {α β : Type} [Inhabited α] [Inhabited β]
    (points : List α) (locs : List (α → Bool)) (vecs : List ℤ) (vfns : List (α → β))
    (h : ¬(locs.length = vfns.length ∧ vfns.length = vecs.length)) :
    Dirichlet_boundary_conditions points locs vecs vfns = none := by
  unfold Dirichlet_boundary_conditions
  rw [if_neg h]

theorem C8_witness :
    ¬(d_locs.length = ([] : List (ℚ → ℚ)).length
        ∧ ([] : List (ℚ → ℚ)).length = d_vecs.length)
    ∧ Dirichlet_boundary_conditions d_points d_locs d_vecs ([] : List (ℚ → ℚ)) = none :=
  ⟨by decide, C8_dirichlet_length_mismatch d_points d_locs d_vecs [] (by decide)⟩

/-- C3: Neumann face resolution selects a `(cell, local_face)` pair if and
only if all four of that face's node coordinates satisfy the predicate
(the rows of `get_face_inds` have exactly 4 nodes); a predicate satisfied by
no face yields an empty list rather than an error. -/
theorem C3_neumann_face_selection {α : Type} [Inhabited α]
    (points : List α) (cells : List (List ℕ)) (location_fns : List (α → Bool)) :
    (Neuman_boundary_conditions_inds points cells location_fns
        = location_fns.map (boundary_inds points cells))
    ∧ (∀ c f : ℕ, f < 6 → (cell_face_points points cells c f).length = 4)
    ∧ (∀ (loc : α → Bool) (c f : ℕ),
        ((c, f) ∈ boundary_inds points cells loc
          ↔ c < cells.length ∧ f < 6
            ∧ ∀ p ∈ cell_face_points points cells c f, loc p = true))
    ∧ (∀ loc : α → Bool,
        (∀ c f : ℕ, ¬(c < cells.length ∧ f < 6
            ∧ ∀ p ∈ cell_face_points points cells c f, loc p = true)) →
          boundary_inds points cells loc = []) := by
  have hlen : ∀ f : ℕ, f < 6 → (get_face_inds.getD f []).length = 4 := by decide
  have hiff : ∀ (loc : α → Bool) (c f : ℕ),
      (c, f) ∈ boundary_inds points cells loc
        ↔ c < cells.length ∧ f < 6
          ∧ ∀ p ∈ cell_face_points points cells c f, loc p = true := by
    intro loc c f
    unfold boundary_inds
    rw [List.mem_filter]
    constructor
    · rintro ⟨hmem, hall⟩
      obtain ⟨c', hc', hmm⟩ := List.mem_flatMap.mp hmem
      obtain ⟨f', hf', heq⟩ := List.mem_map.mp hmm
      cases heq
      exact ⟨List.mem_range.mp hc', List.mem_range.mp hf',
        fun p hp => List.all_eq_true.mp hall p hp⟩
    · rintro ⟨hc, hf, hall⟩
      exact ⟨List.mem_flatMap.mpr ⟨c, List.mem_range.mpr hc,
        List.mem_map.mpr ⟨f, List.mem_range.mpr hf, rfl⟩⟩, List.all_eq_true.mpr hall⟩
  refine ⟨rfl, ?_, hiff, ?_⟩
  · intro c f hf
    unfold cell_face_points
    rw [List.length_map, hlen f hf]
  · intro loc hnone
    refine List.eq_nil_iff_forall_not_mem.mpr fun x hx => ?_
    exact hnone x.1 x.2 ((hiff loc x.1 x.2).mp hx)

/-- C9 counterexample: `compute_residual` called on the single-cell
unit-cube mesh with a solution field of 1 node (the mesh has 8) does NOT
fail: the gather clamps the out-of-range node indices, the scatter drops
them, the final subtraction broadcasts the 1-row result against the 8-row
`body_force`, and a residual is returned with no error — there is no
validation at the API boundary. -/
theorem C9_counterexample :
    (Arr.compute_residual_shapes unit_cube_cells_arr unit_cube_shape_grads_arr
        unit_cube_jxw_arr 3 (zeros_arr 8 3) (zeros_arr 8 3) mismatched_sol).isOk = true := by
  rfl

/-- C9 amended: `compute_residual` performs no shape validation; a
mismatched solution is processed with `jax.numpy`'s index-clamping, scatter
dropping and broadcasting semantics, and may even complete silently: the
1-node solution on the 8-node unit-cube mesh yields an `(8, 3)` residual
array (broadcast up from the 1-row accumulator) rather than any error. -/
theorem C9_no_shape_validation :
    (Arr.compute_residual_shapes unit_cube_cells_arr unit_cube_shape_grads_arr
          unit_cube_jxw_arr 3 (zeros_arr 8 3) (zeros_arr 8 3) mismatched_sol).toOption.map
        (fun r => (r.length, r.map List.length))
      = some (8, List.replicate 8 3) := by
  rfl

end JaxFem
